import Mathlib

/-!
Verification of the Kubrowser backend (Go) against its natural-language
specification.  The Go functions relevant to the claims are shallowly
embedded as executable Lean definitions below; theorems about those
definitions settle the claims.

Embedded source locations:
  backend/internal/k8s/pod_manager.go   : sanitizeUsername, isAlphanumeric,
                                          CreatePodWithStatus, waitForPodReady,
                                          DeletePod
  backend/internal/terminal/executor.go : stdinStream.Read, StreamTerminal
  internal/session (executor.go bundle) : Session, Manager.TryLockExec,
                                          UnlockExec, SetActive, GetSession,
                                          CleanupStaleSessions
  internal/cleanup (Cleaner.cleanup)    : the sweep predicate
  internal/api handlers                 : generateSessionID, randomString
-/

namespace Kubrowser

/-! ### Username sanitization (pod_manager.go, sanitizeUsername) -/

/-- Go `isAlphanumeric(r rune)`: `(r >= 'a' && r <= 'z') || (r >= '0' && r <= '9')`. -/
def isAlphanumeric (c : Char) : Bool :=
  ('a' ≤ c && c ≤ 'z') || ('0' ≤ c && c ≤ '9')

/-- Characters kept by the regex `[^a-z0-9.-]` replacement: lowercase letters,
digits, dot and hyphen survive; everything else is replaced. -/
def legalChar (c : Char) : Bool :=
  ('a' ≤ c && c ≤ 'z') || ('0' ≤ c && c ≤ '9') || c = '.' || c = '-'

/-- Go `re.ReplaceAllString(username, "-")` with `re = [^a-z0-9.-]`:
every rune outside the legal set becomes a single hyphen. -/
def replaceInvalid (l : List Char) : List Char :=
  l.map (fun c => if legalChar c then c else '-')

/-- Membership in the cutset of `strings.Trim(username, "-.")`. -/
def inCutset (c : Char) : Bool := c = '-' || c = '.'

/-- Go `strings.Trim(username, "-.")`: removes leading and trailing runes
belonging to the cutset. -/
def trimCutset (l : List Char) : List Char :=
  ((l.dropWhile inCutset).reverse.dropWhile inCutset).reverse

/-- Go: `if len(username) > 0 && !isAlphanumeric(rune(username[0])) { username = "u" + username }`. -/
def fixStart (l : List Char) : List Char :=
  match l with
  | [] => []
  | c :: _ => if isAlphanumeric c then l else 'u' :: l

/-- Go: `if len(username) > 0 && !isAlphanumeric(rune(username[len(username)-1])) { username = username + "0" }`. -/
def fixEnd (l : List Char) : List Char :=
  match l.getLast? with
  | none => l
  | some c => if isAlphanumeric c then l else l ++ ['0']

/-- Go: truncation to 63 bytes, re-fixing a non-alphanumeric final byte by
`username[:62] + "0"`.  After `replaceInvalid` the string is pure ASCII, so
bytes and characters coincide. -/
def truncate63 (l : List Char) : List Char :=
  if 63 < l.length then
    let t := l.take 63
    match t.getLast? with
    | none => t
    | some c => if isAlphanumeric c then t else t.take 62 ++ ['0']
  else l

/-- Go `sanitizeUsername` on the rune list of the input.  `Char.toLower`
models `strings.ToLower` (they agree on ASCII; any rune still outside
`[a-z0-9.-]` after lowering is replaced by a hyphen either way). -/
def sanitizeUsernameL (input : List Char) : List Char :=
  let u0 := if input = [] then "anonymous".data else input
  let u1 := u0.map Char.toLower
  let u2 := replaceInvalid u1
  let u3 := trimCutset u2
  let u4 := fixStart u3
  let u5 := fixEnd u4
  let u6 := truncate63 u5
  if u6 = [] then "anonymous".data else u6

/-- Go `sanitizeUsername(username string) string`. -/
def sanitizeUsername (username : String) : String :=
  ⟨sanitizeUsernameL username.data⟩

/-! ### Sandbox creation (pod_manager.go, CreatePodWithStatus / waitForPodReady)

The cluster API is external, so `CreatePodWithStatus` is embedded as a
function of the responses the cluster gives at each call site: the initial
`Get` of the per-user pod, the outcome of the `Delete` of an existing pod,
the validity of the configured resource quantities, the outcome of `Create`,
and the pod status returned by each readiness poll.  The embedding returns
the call's result, whether a pod of that name is present on the cluster
afterwards, and the trace of cluster API calls performed. -/

/-- Kubernetes pod phase as used by the readiness check. -/
inductive PodPhase
  | pending
  | running
  | succeeded
  | failed
deriving DecidableEq

/-- The slice of pod state the embedded code inspects: the phase, whether
the PodReady condition is True, and whether a deletion timestamp is set. -/
structure PodInfo where
  phase : PodPhase
  ready : Bool
  terminating : Bool
deriving DecidableEq

/-- Result of one `Get` during readiness polling: a transient API error, or
the pod's current status. -/
inductive GetResult
  | fail
  | found (st : PodInfo)
deriving DecidableEq

/-- Result of the `Delete` call on a pre-existing pod: success, not-found
(already gone), or some other error. -/
inductive DeleteRes
  | ok
  | notFound
  | errOther
deriving DecidableEq

/-- Cluster API calls made by `CreatePodWithStatus`, in order. -/
inductive ApiEvent
  | getPod (name : String)
  | deletePod (name : String)
  | sleepSec (s : Nat)
  | createPod (name : String)
  | pollPod (name : String) (i : Nat)
deriving DecidableEq

/-- Cluster responses for one run of `CreatePodWithStatus`.
`deleteRes` answers the delete of a pre-existing pod; `cleanupDeleteRes`
answers the best-effort `DeletePod` issued when readiness is never
reached (its error is discarded by the code, but whether the pod is
actually gone afterwards depends on it). -/
structure ClusterEnv where
  existing : Option PodInfo
  deleteRes : DeleteRes
  cleanupDeleteRes : DeleteRes
  limitsValid : Bool
  createOk : Bool
  sched : Nat → GetResult

/-- Outcome of `waitForPodReady`. -/
inductive WaitOutcome
  | success
  | timeout
  | apiError
deriving DecidableEq

/-- The readiness condition checked by each poll of `waitForPodReady`:
`pod.Status.Phase == PodRunning` and a `PodReady` condition with status True. -/
def pollReady (r : GetResult) : Bool :=
  match r with
  | .fail => false
  | .found st => st.phase = PodPhase.running && st.ready

/-- `wait.PollUntilContextTimeout(ctx, 2s, 5min, true, cond)` polls at most
`300 / 2 = 150` times within the 5-minute bound. -/
def pollFuel : Nat := 150

/-- One run of the bounded polling loop of `waitForPodReady`, started at
poll index `i` with `fuel` polls remaining.  A `Get` error is returned by
the condition function, which ends `PollUntilContextTimeout` immediately;
exhausting the bound yields the timeout.  Also returns the number of polls
performed. -/
def waitForPodReadyFrom (sched : Nat → GetResult) : Nat → Nat → WaitOutcome × Nat
  | 0, _ => (WaitOutcome.timeout, 0)
  | fuel + 1, i =>
    match sched i with
    | .fail => (WaitOutcome.apiError, 1)
    | .found st =>
      if st.phase = PodPhase.running && st.ready then (WaitOutcome.success, 1)
      else
        let rest := waitForPodReadyFrom sched fuel (i + 1)
        (rest.1, rest.2 + 1)

/-- Go `waitForPodReady`: poll every 2 seconds for up to 5 minutes. -/
def waitForPodReady (sched : Nat → GetResult) : WaitOutcome × Nat :=
  waitForPodReadyFrom sched pollFuel 0

/-- The pod name computed by `CreatePodWithStatus`:
`kubrowser-{sanitized username}`, re-truncated so the whole name fits in 63
characters (`maxUsernameLen = 63 - 10`). -/
def podNameFor (username : String) : String :=
  let sanitized := sanitizeUsername username
  let podName := "kubrowser-" ++ sanitized
  if 63 < podName.length then
    let maxUsernameLen := 63 - 10
    if 0 < maxUsernameLen && maxUsernameLen < sanitized.length then
      "kubrowser-" ++ (sanitized.take maxUsernameLen)
    else podName
  else podName

/-- Result of one run of `CreatePodWithStatus`: the returned value (pod name
or error message), whether a pod named `podNameFor username` is present on
the cluster after the call, and the trace of cluster API calls. -/
structure RunResult where
  result : Except String String
  present : Bool
  trace : List ApiEvent

/-- Go `CreatePodWithStatus` (pod_manager.go, per-username revision):
1. compute `podName = kubrowser-{sanitized username}`;
2. `Get` the pod of that name; if it exists, `Delete` it — on success or
   not-found sleep a fixed 1 second, on any other delete error log a
   warning and continue without sleeping;
3. parse the CPU/memory quantities, failing on a configuration error;
4. `Create` the pod, failing if the create fails;
5. `waitForPodReady`; on success return the pod, otherwise issue a
   best-effort `DeletePod` (`_ = pm.DeletePod(ctx, podName)` — the
   error, if any, is discarded) and return an error.  The created pod
   remains on the cluster exactly when that cleanup delete fails with an
   error other than not-found (`DeletePod` treats not-found as success,
   the pod already being gone). -/
def createPodWithStatus (username : String) (env : ClusterEnv) : RunResult :=
  let podName := podNameFor username
  let cleanupTrace : List ApiEvent × Bool :=
    match env.existing with
    | some _ =>
      if env.deleteRes = DeleteRes.errOther then
        ([ApiEvent.getPod podName, ApiEvent.deletePod podName], true)
      else
        ([ApiEvent.getPod podName, ApiEvent.deletePod podName, ApiEvent.sleepSec 1], false)
    | none => ([ApiEvent.getPod podName], false)
  let tr0 := cleanupTrace.1
  let oldPresent := cleanupTrace.2
  if env.limitsValid = false then
    ⟨Except.error "invalid resource limit", oldPresent, tr0⟩
  else if env.createOk = false then
    ⟨Except.error "failed to create pod", oldPresent, tr0 ++ [ApiEvent.createPod podName]⟩
  else
    let w := waitForPodReady env.sched
    let polls := (List.range w.2).map (fun i => ApiEvent.pollPod podName i)
    match w.1 with
    | WaitOutcome.success =>
      ⟨Except.ok podName, true, tr0 ++ [ApiEvent.createPod podName] ++ polls⟩
    | _ =>
      ⟨Except.error "pod failed to become ready",
        (if env.cleanupDeleteRes = DeleteRes.errOther then true else false),
        tr0 ++ [ApiEvent.createPod podName] ++ polls ++ [ApiEvent.deletePod podName]⟩

/-- Recognizer for `Get` events (used to look for absence polling). -/
def ApiEvent.isGet : ApiEvent → Bool
  | .getPod _ => true
  | _ => false

/-- Recognizer for `Delete` events. -/
def ApiEvent.isDelete : ApiEvent → Bool
  | .deletePod _ => true
  | _ => false

/-- Recognizer for `Create` events. -/
def ApiEvent.isCreate : ApiEvent → Bool
  | .createPod _ => true
  | _ => false

/-- The API calls made strictly between the first `Delete` and the next
`Create` — where the spec places the poll-until-absent loop. -/
def betweenDeleteCreate (tr : List ApiEvent) : List ApiEvent :=
  ((tr.dropWhile (fun e => !e.isDelete)).drop 1).takeWhile (fun e => !e.isCreate)

/-! ### Session registry (internal/session, Manager) -/

/-- Go `session.Session`.  Timestamps are embedded as integers
(`time.Time` compared by difference against a `time.Duration`). -/
structure Session where
  id : String
  podName : String
  createdAt : Int
  lastUsed : Int
  userID : String
  active : Bool
  execLock : Bool
deriving DecidableEq

/-- The registry map `sessions map[string]*Session` as an association list
(Go map keys are unique; lookup takes the first match). -/
abbrev Registry : Type := List (String × Session)

/-- Lookup in the registry map. -/
def findSession : Registry → String → Option Session
  | [], _ => none
  | (k, s) :: rest, id => if k = id then some s else findSession rest id

/-- Pointwise update of the session stored under a key (Go mutates the
`*Session` found in the map). -/
def updateSession : Registry → String → (Session → Session) → Registry
  | [], _, _ => []
  | (k, s) :: rest, id, f =>
    if k = id then (k, f s) :: updateSession rest id f
    else (k, s) :: updateSession rest id f

/-- Go `Manager.TryLockExec`: if the session exists and `ExecLock` is
false, set it and return true; otherwise return false without change. -/
def tryLockExec (reg : Registry) (id : String) : Bool × Registry :=
  match findSession reg id with
  | none => (false, reg)
  | some s =>
    if s.execLock then (false, reg)
    else (true, updateSession reg id (fun t => { t with execLock := true }))

/-- Go `Manager.UnlockExec`: clear `ExecLock` if the session exists. -/
def unlockExec (reg : Registry) (id : String) : Registry :=
  updateSession reg id (fun t => { t with execLock := false })

/-- Go `Manager.SetActive`: set `Active`; when activating also refresh
`LastUsed` to now, when deactivating also clear `ExecLock`. -/
def setActive (reg : Registry) (id : String) (active : Bool) (now : Int) : Registry :=
  updateSession reg id (fun t =>
    if active then { t with active := true, lastUsed := now }
    else { t with active := false, execLock := false })

/-- The eviction test of `Manager.CleanupStaleSessions`: skip active
sessions, evict when `now.Sub(session.LastUsed) > m.timeout`. -/
def staleCond (now timeout : Int) (s : Session) : Bool :=
  !s.active && timeout < now - s.lastUsed

/-- Go `shouldDelete == nil || shouldDelete(id)`. -/
def predPasses (pred : Option (String → Bool)) (id : String) : Bool :=
  match pred with
  | none => true
  | some p => p id

/-- Go `Manager.CleanupStaleSessions`: iterate over the map, and for every
non-active session idle longer than the timeout whose predicate passes,
delete the entry and record its id.  Returns the remaining registry and
the deleted ids. -/
def cleanupStaleSessions (now timeout : Int) (pred : Option (String → Bool)) :
    Registry → Registry × List String
  | [] => ([], [])
  | (id, s) :: rest =>
    let prev := cleanupStaleSessions now timeout pred rest
    if staleCond now timeout s && predPasses pred id then (prev.1, id :: prev.2)
    else ((id, s) :: prev.1, prev.2)

/-! ### Lock discipline of the Cleaner sweep (internal/cleanup, Cleaner.cleanup)

`Cleaner.cleanup` passes `CleanupStaleSessions` a predicate that calls
`Manager.GetSession` (which takes the registry's `RWMutex` in read mode)
and `PodManager.DeletePod` (a cluster API call with a 30-second timeout).
`CleanupStaleSessions` invokes the predicate while holding the same mutex
in write mode.  The trace below records the sequence of lock and I/O
operations this code attempts. -/

/-- Lock/I/O operations on the registry's `sync.RWMutex` and the network. -/
inductive RegOp
  | lockW
  | unlockW
  | lockR
  | unlockR
  | netCall (what : String)
deriving DecidableEq

/-- Go `Manager.GetSession` takes and releases the read lock. -/
def getSessionOps : List RegOp := [RegOp.lockR, RegOp.unlockR]

/-- The Cleaner's sweep predicate: `GetSession(sessionID)` followed (when
the session exists, as it does for an entry being iterated) by
`DeletePod(sess.PodName)` — a cluster API call with a 30s timeout. -/
def cleanerPredicateOps : List RegOp := getSessionOps ++ [RegOp.netCall "DeletePod"]

/-- Operations attempted inside the loop body of `CleanupStaleSessions`
when invoked by the Cleaner: the predicate runs for every stale entry. -/
def cleanupLoopOps (now timeout : Int) : Registry → List RegOp
  | [] => []
  | (_, s) :: rest =>
    (if staleCond now timeout s then cleanerPredicateOps else []) ++
      cleanupLoopOps now timeout rest

/-- The full operation sequence of one `Cleaner.cleanup` sweep:
`CleanupStaleSessions` takes the write lock, runs the loop (invoking the
Cleaner's predicate for each stale entry), and releases the write lock. -/
def cleanerSweepOps (reg : Registry) (now timeout : Int) : List RegOp :=
  RegOp.lockW :: cleanupLoopOps now timeout reg ++ [RegOp.unlockW]

/-- Scans an operation sequence, tracking how many write acquisitions are
outstanding, and reports whether any lock acquisition or network call is
attempted while the write lock is held.  On Go's non-reentrant
`sync.RWMutex`, an `RLock` attempted by the goroutine holding `Lock`
deadlocks, and the spec forbids I/O under the lock. -/
def violationFrom : Nat → List RegOp → Bool
  | _, [] => false
  | d, RegOp.lockW :: rest => (decide (0 < d)) || violationFrom (d + 1) rest
  | d, RegOp.unlockW :: rest => violationFrom (d - 1) rest
  | d, RegOp.lockR :: rest => (decide (0 < d)) || violationFrom d rest
  | d, RegOp.unlockR :: rest => violationFrom d rest
  | d, RegOp.netCall _ :: rest => (decide (0 < d)) || violationFrom d rest

/-- Whether a sweep's operation sequence violates the no-I/O-or-reentrant-
locking-under-the-write-lock discipline. -/
def violatesLockDiscipline (tr : List RegOp) : Bool := violationFrom 0 tr

/-! ### Inbound frame handling (executor.go, stdinStream.Read) -/

/-- WebSocket message kinds distinguished by `stdinStream.Read`. -/
inductive FrameType
  | text
  | binary
  | other
deriving DecidableEq

/-- One frame read from the client connection; `data` is the byte slice. -/
structure Frame where
  ftype : FrameType
  data : List Nat
deriving DecidableEq

/-- Go `len(message) > 0 && message[0] == '{' && len(message) < 200`:
the byte 123 is the opening-brace character. -/
def looksLikeSessionInfo (d : List Nat) : Bool :=
  match d with
  | [] => false
  | b :: _ => b = 123 && d.length < 200

/-- Whether a frame is forwarded as terminal input when not skipped
(Go forwards text and binary messages, drops everything else). -/
def isDataFrame (f : Frame) : Bool :=
  f.ftype = FrameType.text || f.ftype = FrameType.binary

/-- The skip test of `stdinStream.Read`: a text message, before any skip
has happened, whose first byte is a brace and whose length is below 200. -/
def skippable (f : Frame) : Bool :=
  f.ftype = FrameType.text && looksLikeSessionInfo f.data

/-- The frame-selection behaviour of the `stdinStream.Read` loop over a
sequence of frames: with `sessionSent` false, the first skippable text
frame is dropped and `sessionSent` becomes true; all other text and
binary frames are forwarded in order; non-data messages are dropped. -/
def forwardFrames : Bool → List Frame → List Frame
  | _, [] => []
  | sessionSent, f :: rest =>
    if sessionSent = false && skippable f then forwardFrames true rest
    else if isDataFrame f then f :: forwardFrames sessionSent rest
    else forwardFrames sessionSent rest

/-- `StreamTerminal` constructs the stdin stream with
`sessionSent: false` unconditionally — there is no reconnect flag — so
every session's inbound loop starts with the skip armed. -/
def streamTerminalForwarded (frames : List Frame) : List Frame :=
  forwardFrames false frames

/-! ### Session id generation (internal/api handlers) -/

/-- Go `randomString`'s charset `"abcdefghijklmnopqrstuvwxyz0123456789"`. -/
def charset : List Char := "abcdefghijklmnopqrstuvwxyz0123456789".data

/-- Go `randomString(length int)`: `b[i] = charset[i%len(charset)]` —
no randomness source is consulted. -/
def randomString (length : Nat) : String :=
  ⟨(List.range length).map (fun i => charset.getD (i % charset.length) 'a')⟩

/-- Go `generateSessionID`, parameterized by the formatted clock reading
`time.Now().Format("20060102150405")` (second resolution). -/
def generateSessionID (nowFormatted : String) : String :=
  "session-" ++ nowFormatted ++ "-" ++ randomString 8

/-! ## Lemmas about username sanitization -/

lemma mem_replaceInvalid_legal {c : Char} {l : List Char} (h : c ∈ replaceInvalid l) :
    legalChar c = true := by
  rcases List.mem_map.mp h with ⟨a, _, ha⟩
  rw [← ha]
  by_cases hl : legalChar a = true
  · simp [hl]
  · simp only [hl, Bool.false_eq_true, if_false]
    decide

lemma mem_trimCutset {c : Char} {l : List Char} (h : c ∈ trimCutset l) : c ∈ l := by
  unfold trimCutset at h
  rw [List.mem_reverse] at h
  have h2 := (List.dropWhile_sublist (l := (l.dropWhile inCutset).reverse)
    (p := inCutset)).mem h
  rw [List.mem_reverse] at h2
  exact (List.dropWhile_sublist (l := l) (p := inCutset)).mem h2

lemma mem_fixStart {c : Char} {l : List Char} (h : c ∈ fixStart l) : c = 'u' ∨ c ∈ l := by
  unfold fixStart at h
  match l, h with
  | a :: t, h =>
    by_cases ha : isAlphanumeric a = true
    · simp only [ha, if_true] at h; exact Or.inr h
    · simp only [ha] at h
      simp only [Bool.false_eq_true, if_false, List.mem_cons] at h
      rcases h with h | h | h
      · exact Or.inl h
      · exact Or.inr (List.mem_cons.mpr (Or.inl h))
      · exact Or.inr (List.mem_cons.mpr (Or.inr h))

lemma mem_fixEnd {c : Char} {l : List Char} (h : c ∈ fixEnd l) : c = '0' ∨ c ∈ l := by
  unfold fixEnd at h
  match hg : l.getLast? with
  | none => rw [hg] at h; exact Or.inr h
  | some a =>
    rw [hg] at h
    by_cases ha : isAlphanumeric a = true
    · simp only [ha, if_true] at h; exact Or.inr h
    · simp only [ha] at h
      simp only [Bool.false_eq_true, if_false, List.mem_append, List.mem_singleton] at h
      rcases h with h | h
      · exact Or.inr h
      · exact Or.inl h

lemma mem_truncate63 {c : Char} {l : List Char} (h : c ∈ truncate63 l) : c = '0' ∨ c ∈ l := by
  unfold truncate63 at h
  by_cases h63 : 63 < l.length
  · simp only [h63, if_true] at h
    match hg : (l.take 63).getLast? with
    | none =>
      rw [hg] at h
      exact Or.inr ((List.take_sublist 63 l).mem h)
    | some a =>
      rw [hg] at h
      by_cases ha : isAlphanumeric a = true
      · simp only [ha, if_true] at h
        exact Or.inr ((List.take_sublist 63 l).mem h)
      · simp only [ha] at h
        simp only [Bool.false_eq_true, if_false, List.mem_append, List.mem_singleton] at h
        rcases h with h | h
        · exact Or.inr ((List.take_sublist 63 l).mem (((List.take_sublist 62 _)).mem h))
        · exact Or.inl h
  · simp only [h63, if_false] at h
    exact Or.inr h

lemma fixStart_head {l : List Char} (h : l ≠ []) :
    ∃ c, (fixStart l).head? = some c ∧ isAlphanumeric c = true := by
  match l, h with
  | a :: t, _ =>
    unfold fixStart
    by_cases ha : isAlphanumeric a = true
    · exact ⟨a, by simp [ha], ha⟩
    · refine ⟨'u', ?_, by decide⟩
      simp [ha]

lemma fixEnd_head? {l : List Char} (h : l ≠ []) : (fixEnd l).head? = l.head? := by
  unfold fixEnd
  match hg : l.getLast? with
  | none => rfl
  | some a =>
    by_cases ha : isAlphanumeric a = true
    · simp [ha]
    · simp only [ha, Bool.false_eq_true, if_false]
      exact List.head?_append_of_ne_nil _ h

lemma fixEnd_ne_nil {l : List Char} (h : l ≠ []) : fixEnd l ≠ [] := by
  intro hc
  have := fixEnd_head? h
  rw [hc] at this
  match l, h with
  | a :: t, _ => simp at this

lemma fixEnd_last {l : List Char} (h : l ≠ []) :
    ∃ c, (fixEnd l).getLast? = some c ∧ isAlphanumeric c = true := by
  unfold fixEnd
  match hg : l.getLast? with
  | none => exact absurd (List.getLast?_eq_none_iff.mp hg) h
  | some a =>
    by_cases ha : isAlphanumeric a = true
    · exact ⟨a, by simp [hg, ha], ha⟩
    · refine ⟨'0', ?_, by decide⟩
      simp only [ha, Bool.false_eq_true, if_false]
      exact List.getLast?_concat l

lemma truncate63_head? {l : List Char} (_h : l ≠ []) : (truncate63 l).head? = l.head? := by
  unfold truncate63
  by_cases h63 : 63 < l.length
  · simp only [h63, if_true]
    match hg : (l.take 63).getLast? with
    | none => simp [List.head?_take]
    | some a =>
      by_cases ha : isAlphanumeric a = true
      · simp [ha, List.head?_take]
      · simp only [ha, Bool.false_eq_true, if_false]
        have hne : (l.take 63).take 62 ≠ [] := by
          have : ((l.take 63).take 62).length = 62 := by
            rw [List.length_take, List.length_take]
            omega
          intro hc
          rw [hc] at this
          simp at this
        rw [List.head?_append_of_ne_nil _ hne]
        rw [List.take_take]
        have : (62 : Nat) ⊓ 63 = 62 := by norm_num
        rw [this, List.head?_take]
        simp
  · simp [h63]

lemma truncate63_ne_nil {l : List Char} (h : l ≠ []) : truncate63 l ≠ [] := by
  intro hc
  have := truncate63_head? h
  rw [hc] at this
  match l, h with
  | a :: t, _ => simp at this

lemma truncate63_last {l : List Char} (_h : l ≠ [])
    (hl : ∃ c, l.getLast? = some c ∧ isAlphanumeric c = true) :
    ∃ c, (truncate63 l).getLast? = some c ∧ isAlphanumeric c = true := by
  unfold truncate63
  by_cases h63 : 63 < l.length
  · simp only [h63, if_true]
    match hg : (l.take 63).getLast? with
    | none =>
      have : l.take 63 ≠ [] := by
        intro hc
        have : (l.take 63).length = 63 := by rw [List.length_take]; omega
        rw [hc] at this; simp at this
      exact absurd (List.getLast?_eq_none_iff.mp hg) this
    | some a =>
      by_cases ha : isAlphanumeric a = true
      · exact ⟨a, by simp [ha, hg], ha⟩
      · refine ⟨'0', ?_, by decide⟩
        simp only [ha, Bool.false_eq_true, if_false]
        exact List.getLast?_concat _
  · simp only [h63, if_false]
    exact hl

lemma fixStart_ne_nil {l : List Char} (h : l ≠ []) : fixStart l ≠ [] := by
  match l, h with
  | a :: t, _ =>
    unfold fixStart
    by_cases ha : isAlphanumeric a = true
    · simp [ha]
    · simp [ha]

lemma truncate63_length (l : List Char) : (truncate63 l).length ≤ 63 := by
  unfold truncate63
  by_cases h63 : 63 < l.length
  · simp only [h63, if_true]
    match hg : (l.take 63).getLast? with
    | none => simp [List.length_take]
    | some a =>
      by_cases ha : isAlphanumeric a = true
      · simp [ha, List.length_take]
      · simp only [ha, Bool.false_eq_true, if_false]
        rw [List.length_append, List.length_take, List.length_take]
        simp
  · simp only [h63, if_false]
    omega

lemma sanitizeUsernameL_props (input : List Char) :
    sanitizeUsernameL input ≠ []
    ∧ (sanitizeUsernameL input).length ≤ 63
    ∧ (∀ c ∈ sanitizeUsernameL input, legalChar c = true)
    ∧ (∃ c, (sanitizeUsernameL input).head? = some c ∧ isAlphanumeric c = true)
    ∧ (∃ c, (sanitizeUsernameL input).getLast? = some c ∧ isAlphanumeric c = true) := by
  have hExpand : sanitizeUsernameL input =
      (if truncate63 (fixEnd (fixStart (trimCutset (replaceInvalid
          ((if input = [] then "anonymous".data else input).map Char.toLower))))) = []
       then "anonymous".data
       else truncate63 (fixEnd (fixStart (trimCutset (replaceInvalid
          ((if input = [] then "anonymous".data else input).map Char.toLower)))))) := rfl
  rw [hExpand]
  set u3 := trimCutset (replaceInvalid
    ((if input = [] then "anonymous".data else input).map Char.toLower)) with hu3
  by_cases h3 : u3 = []
  · rw [h3]
    have hz : truncate63 (fixEnd (fixStart ([] : List Char))) = [] := by decide
    rw [hz]
    refine ⟨by decide, by decide, by decide, by decide, by decide⟩
  · have h4 : fixStart u3 ≠ [] := fixStart_ne_nil h3
    have h5 : fixEnd (fixStart u3) ≠ [] := fixEnd_ne_nil h4
    have h6 : truncate63 (fixEnd (fixStart u3)) ≠ [] := truncate63_ne_nil h5
    simp only [h6, if_neg, if_false]
    refine ⟨h6, truncate63_length _, ?_, ?_, ?_⟩
    · intro c hc
      rcases mem_truncate63 hc with h | h
      · subst h; decide
      rcases mem_fixEnd h with h | h
      · subst h; decide
      rcases mem_fixStart h with h | h
      · subst h; decide
      exact mem_replaceInvalid_legal (mem_trimCutset h)
    · rcases fixStart_head h3 with ⟨c, hc, hca⟩
      refine ⟨c, ?_, hca⟩
      rw [truncate63_head? h5, fixEnd_head? h4, hc]
    · exact truncate63_last h5 (fixEnd_last h4)

/-! ## Claim theorems -/

/-- C8: for every input string, `sanitizeUsername` returns a non-empty
string of at most 63 characters over the lowercase alphabet
`[a-z0-9.-]`, starting and ending with an alphanumeric character; the
empty input maps to `"anonymous"`, and an input with uppercase letters
and a space such as `"Alice Smith"` maps to the lowercase
alphanumeric-and-hyphen string `"alice-smith"`. -/
theorem C8_sanitize_username_wellformed (username : String) :
    sanitizeUsername username ≠ ""
    ∧ (sanitizeUsername username).length ≤ 63
    ∧ (∀ c ∈ (sanitizeUsername username).data, legalChar c = true)
    ∧ (∃ c, (sanitizeUsername username).data.head? = some c ∧ isAlphanumeric c = true)
    ∧ (∃ c, (sanitizeUsername username).data.getLast? = some c ∧ isAlphanumeric c = true)
    ∧ sanitizeUsername "" = "anonymous"
    ∧ sanitizeUsername "Alice Smith" = "alice-smith" := by
  obtain ⟨h1, h2, h3, h4, h5⟩ := sanitizeUsernameL_props username.data
  refine ⟨?_, h2, h3, h4, h5, by decide, by decide⟩
  intro hc
  exact h1 (congrArg String.data hc)

/-- C8 witness: the well-formedness theorem instantiated at an input with
uppercase letters, an underscore, and punctuation. -/
theorem C8_witness :
    sanitizeUsername "Bob_Smith!" ≠ ""
    ∧ (sanitizeUsername "Bob_Smith!").length ≤ 63 := by
  have h := C8_sanitize_username_wellformed "Bob_Smith!"
  exact ⟨h.1, h.2.1⟩

/-- C10: `randomString` consults no randomness source: its result is the
pure function of the length, namely the first `n` characters of the cyclic
repetition of the charset (so `randomString 8` is always `"abcdefgh"`),
and `generateSessionID` is therefore fully determined by the formatted
clock second — two calls within the same second return identical ids. -/
theorem C10_random_string_deterministic :
    (∀ n : Nat, (randomString n).length = n
      ∧ ∀ i : Nat, i < n →
        (randomString n).data.getD i ' ' = charset.getD (i % charset.length) ' ')
    ∧ randomString 8 = "abcdefgh"
    ∧ (∀ t : String, generateSessionID t = "session-" ++ t ++ "-abcdefgh") := by
  refine ⟨?_, by decide, ?_⟩
  · intro n
    constructor
    · show ((List.range n).map _).length = n
      simp
    · intro i hi
      show ((List.range n).map _).getD i ' ' = _
      have hk : i % charset.length < charset.length :=
        Nat.mod_lt i (by decide)
      simp [List.getD_eq_getElem?_getD, List.getElem?_map, List.getElem?_range, hi,
        List.getElem?_eq_getElem hk]
  · intro t
    show "session-" ++ t ++ "-" ++ randomString 8 = _
    rw [show randomString 8 = "abcdefgh" from by decide]
    rw [String.append_assoc ("session-" ++ t) "-" "abcdefgh"]
    rfl

/-- C10 witness: the general theorem evaluated at length 5, index 3, and a
concrete formatted timestamp. -/
theorem C10_witness :
    (randomString 5).data.getD 3 ' ' = charset.getD (3 % charset.length) ' '
    ∧ generateSessionID "20240101000000" = "session-20240101000000-abcdefgh" :=
  ⟨(C10_random_string_deterministic.1 5).2 3 (by decide),
   C10_random_string_deterministic.2.2 "20240101000000"⟩

/-- C9 counterexample: the claim says every frame other than the one
leading handoff frame — in particular any later text frame that begins
with a brace — is forwarded unchanged.  But for the inbound sequence
["hi", "\x7b\x7d"] the second frame (a later 2-byte text frame whose
first byte is the brace 123) is dropped by `stdinStream.Read`, not
forwarded. -/
theorem C9_counterexample :
    streamTerminalForwarded
        [⟨FrameType.text, [104, 105]⟩, ⟨FrameType.text, [123, 125]⟩] =
      [⟨FrameType.text, [104, 105]⟩]
    ∧ (⟨FrameType.text, [123, 125]⟩ : Frame) ∉
        streamTerminalForwarded
          [⟨FrameType.text, [104, 105]⟩, ⟨FrameType.text, [123, 125]⟩] := by
  constructor
  · decide
  · decide

lemma forwardFrames_sent (fs : List Frame) :
    forwardFrames true fs = fs.filter isDataFrame := by
  induction fs with
  | nil => rfl
  | cons f rest ih =>
    show (if (true = false) && skippable f then _ else _) = _
    simp only [List.filter_cons]
    by_cases hd : isDataFrame f = true
    · simp [hd, ih]
    · simp [hd, ih]

lemma forwardFrames_no_skippable {fs : List Frame}
    (h : ∀ f ∈ fs, skippable f = false) :
    forwardFrames false fs = fs.filter isDataFrame := by
  induction fs with
  | nil => rfl
  | cons f rest ih =>
    have hf : skippable f = false := h f (List.mem_cons_self f rest)
    have hrest : ∀ g ∈ rest, skippable g = false :=
      fun g hg => h g (List.mem_cons_of_mem f hg)
    show (if (false = false) && skippable f then _ else _) = _
    simp only [List.filter_cons]
    by_cases hd : isDataFrame f = true
    · simp [hf, hd, ih hrest]
    · simp [hf, hd, ih hrest]

/-- C9 amended: the inbound loop skips at most one frame — the first text
frame whose first byte is a brace and whose length is under 200 bytes —
wherever it occurs in the stream, and it is armed on every session
(`StreamTerminal` initializes `sessionSent` to false unconditionally;
there is no reconnect distinction).  Every other text or binary frame is
forwarded unchanged in order, and once one frame has been skipped all
later frames are forwarded. -/
theorem C9_amended_skip_first_brace_frame :
    (∀ fs : List Frame, forwardFrames true fs = fs.filter isDataFrame)
    ∧ (∀ fs : List Frame, (∀ f ∈ fs, skippable f = false) →
        streamTerminalForwarded fs = fs.filter isDataFrame)
    ∧ (∀ (l1 : List Frame) (f : Frame) (l2 : List Frame),
        (∀ g ∈ l1, skippable g = false) → skippable f = true →
        streamTerminalForwarded (l1 ++ f :: l2) =
          l1.filter isDataFrame ++ l2.filter isDataFrame) := by
  refine ⟨forwardFrames_sent, fun fs h => forwardFrames_no_skippable h, ?_⟩
  intro l1 f l2
  induction l1 with
  | nil =>
    intro _ hf
    show (if (false = false) && skippable f then _ else _) = _
    simp [hf, forwardFrames_sent]
  | cons g rest ih =>
    intro h1 hf
    have hg : skippable g = false := h1 g (List.mem_cons_self g rest)
    have hrest : ∀ x ∈ rest, skippable x = false :=
      fun x hx => h1 x (List.mem_cons_of_mem g hx)
    show (if (false = false) && skippable g then _ else _) = _
    simp only [List.filter_cons]
    have ih2 := ih hrest hf
    simp only [streamTerminalForwarded] at ih2
    by_cases hd : isDataFrame g = true
    · simp [hg, hd, ih2]
    · simp [hg, hd, ih2]

/-- C9 witness: the amended theorem applied to a concrete stream — a
binary frame, then the skippable handoff frame, then a text frame. -/
theorem C9_witness :
    streamTerminalForwarded
        [⟨FrameType.binary, [1]⟩, ⟨FrameType.text, [123, 125]⟩,
          ⟨FrameType.text, [123, 126]⟩] =
      [⟨FrameType.binary, [1]⟩, ⟨FrameType.text, [123, 126]⟩] := by
  have h := C9_amended_skip_first_brace_frame.2.2
    [⟨FrameType.binary, [1]⟩] ⟨FrameType.text, [123, 125]⟩
    [⟨FrameType.text, [123, 126]⟩] (by decide) (by decide)
  exact h.trans (by decide)

/-! ## Session registry lemmas -/

lemma tryLockExec_fst_of_locked {reg : Registry} {id : String} {t : Session}
    (h : findSession reg id = some t) (hl : t.execLock = true) :
    (tryLockExec reg id).1 = false := by
  simp [tryLockExec, h, hl]

lemma tryLockExec_fst_of_unlocked {reg : Registry} {id : String} {t : Session}
    (h : findSession reg id = some t) (hl : t.execLock = false) :
    (tryLockExec reg id).1 = true := by
  simp [tryLockExec, h, hl]

lemma findSession_updateSession (reg : Registry) (id : String) (f : Session → Session) :
    findSession (updateSession reg id f) id = (findSession reg id).map f := by
  induction reg with
  | nil => rfl
  | cons p rest ih =>
    obtain ⟨k, s⟩ := p
    by_cases hk : k = id
    · simp [updateSession, findSession, hk]
    · simp [updateSession, findSession, hk, ih]

/-- C4: for a session id present in the registry, `TryLockExec` returns
true and sets `exec_locked` iff it was false, returns false leaving the
registry unchanged if it was true, two consecutive calls yield exactly
one true then false, and after `UnlockExec` or `SetActive(false)` a
subsequent `TryLockExec` succeeds (`SetActive(false)` always clears
`exec_locked`). -/
theorem C4_try_lock_exec_semantics (reg : Registry) (id : String) (s : Session)
    (now : Int) (h : findSession reg id = some s) :
    ((tryLockExec reg id).1 = !s.execLock)
    ∧ (s.execLock = true → tryLockExec reg id = (false, reg))
    ∧ (s.execLock = false →
        findSession (tryLockExec reg id).2 id = some { s with execLock := true })
    ∧ (s.execLock = false → (tryLockExec (tryLockExec reg id).2 id).1 = false)
    ∧ ((tryLockExec (unlockExec reg id) id).1 = true)
    ∧ ((tryLockExec (setActive reg id false now) id).1 = true)
    ∧ (findSession (setActive reg id false now) id =
        some { s with active := false, execLock := false }) := by
  have hupd : ∀ f : Session → Session,
      findSession (updateSession reg id f) id = some (f s) := by
    intro f
    rw [findSession_updateSession, h]
    rfl
  have hunlock : findSession (unlockExec reg id) id =
      some { s with execLock := false } := hupd _
  have hset : findSession (setActive reg id false now) id =
      some { s with active := false, execLock := false } := hupd _
  refine ⟨?_, ?_, ?_, ?_, ?_, ?_, hset⟩
  · by_cases he : s.execLock = true
    · simp [tryLockExec, h, he]
    · simp at he
      simp [tryLockExec, h, he]
  · intro he
    simp [tryLockExec, h, he]
  · intro he
    simp only [tryLockExec, h, he, Bool.false_eq_true, if_false]
    exact hupd _
  · intro he
    have h2 : findSession (tryLockExec reg id).2 id =
        some { s with execLock := true } := by
      simp only [tryLockExec, h, he, Bool.false_eq_true, if_false]
      exact hupd _
    exact tryLockExec_fst_of_locked h2 rfl
  · exact tryLockExec_fst_of_unlocked hunlock rfl
  · exact tryLockExec_fst_of_unlocked hset rfl

/-- C4 witness: the theorem at a one-session registry with the lock free:
the first lock attempt succeeds and an immediate second attempt fails. -/
theorem C4_witness :
    (tryLockExec [("a", ⟨"a", "p", 0, 0, "u", false, false⟩)] "a").1 = true
    ∧ (tryLockExec (tryLockExec [("a", ⟨"a", "p", 0, 0, "u", false, false⟩)] "a").2 "a").1
        = false := by
  have h := C4_try_lock_exec_semantics [("a", ⟨"a", "p", 0, 0, "u", false, false⟩)]
    "a" ⟨"a", "p", 0, 0, "u", false, false⟩ 0 (by decide)
  exact ⟨h.1.trans rfl, h.2.2.2.1 rfl⟩

lemma cleanup_cons (now timeout : Int) (pred : Option (String → Bool))
    (k : String) (t : Session) (rest : Registry) :
    cleanupStaleSessions now timeout pred ((k, t) :: rest) =
      if staleCond now timeout t && predPasses pred k then
        ((cleanupStaleSessions now timeout pred rest).1,
          k :: (cleanupStaleSessions now timeout pred rest).2)
      else ((k, t) :: (cleanupStaleSessions now timeout pred rest).1,
        (cleanupStaleSessions now timeout pred rest).2) := rfl

lemma cleanup_deleted_mem (now timeout : Int) (pred : Option (String → Bool))
    (reg : Registry) (id : String) :
    id ∈ (cleanupStaleSessions now timeout pred reg).2 ↔
      ∃ s, (id, s) ∈ reg ∧ staleCond now timeout s = true ∧ predPasses pred id = true := by
  induction reg with
  | nil => simp [cleanupStaleSessions]
  | cons p rest ih =>
    obtain ⟨k, t⟩ := p
    rw [cleanup_cons]
    by_cases hc : (staleCond now timeout t && predPasses pred k) = true
    · have hc2 := Bool.and_eq_true _ _ |>.mp hc
      rw [hc, if_pos rfl]
      constructor
      · intro h
        rcases List.mem_cons.mp h with hk | hmem
        · subst hk
          exact ⟨t, List.mem_cons.mpr (Or.inl rfl), hc2.1, hc2.2⟩
        · obtain ⟨s, hs, h1, h2⟩ := ih.mp hmem
          exact ⟨s, List.mem_cons.mpr (Or.inr hs), h1, h2⟩
      · rintro ⟨s, hs, h1, h2⟩
        rcases List.mem_cons.mp hs with heq | hmem
        · rw [Prod.mk.injEq] at heq
          exact List.mem_cons.mpr (Or.inl heq.1)
        · exact List.mem_cons.mpr (Or.inr (ih.mpr ⟨s, hmem, h1, h2⟩))
    · rw [if_neg (by exact fun hcc => hc hcc)]
      constructor
      · intro h
        obtain ⟨s, hs, h1, h2⟩ := ih.mp h
        exact ⟨s, List.mem_cons.mpr (Or.inr hs), h1, h2⟩
      · rintro ⟨s, hs, h1, h2⟩
        rcases List.mem_cons.mp hs with heq | hmem
        · rw [Prod.mk.injEq] at heq
          obtain ⟨rfl, rfl⟩ := heq
          exact absurd (Bool.and_eq_true _ _ |>.mpr ⟨h1, h2⟩) hc
        · exact ih.mpr ⟨s, hmem, h1, h2⟩

lemma cleanup_remaining_mem (now timeout : Int) (pred : Option (String → Bool))
    (reg : Registry) (id : String) (s : Session) :
    (id, s) ∈ (cleanupStaleSessions now timeout pred reg).1 ↔
      (id, s) ∈ reg
      ∧ ¬(staleCond now timeout s = true ∧ predPasses pred id = true) := by
  induction reg with
  | nil => simp [cleanupStaleSessions]
  | cons p rest ih =>
    obtain ⟨k, t⟩ := p
    rw [cleanup_cons]
    by_cases hc : (staleCond now timeout t && predPasses pred k) = true
    · have hc2 := Bool.and_eq_true _ _ |>.mp hc
      rw [hc, if_pos rfl]
      constructor
      · intro h
        obtain ⟨hmem, hn⟩ := ih.mp h
        exact ⟨List.mem_cons.mpr (Or.inr hmem), hn⟩
      · rintro ⟨hs, hn⟩
        rcases List.mem_cons.mp hs with heq | hmem
        · rw [Prod.mk.injEq] at heq
          obtain ⟨rfl, rfl⟩ := heq
          exact absurd ⟨hc2.1, hc2.2⟩ hn
        · exact ih.mpr ⟨hmem, hn⟩
    · rw [if_neg (by exact fun hcc => hc hcc)]
      constructor
      · intro h
        rcases List.mem_cons.mp h with heq | hmem
        · rw [Prod.mk.injEq] at heq
          obtain ⟨rfl, rfl⟩ := heq
          refine ⟨List.mem_cons.mpr (Or.inl rfl), ?_⟩
          rintro ⟨h1, h2⟩
          exact hc (Bool.and_eq_true _ _ |>.mpr ⟨h1, h2⟩)
        · obtain ⟨hmem2, hn⟩ := ih.mp hmem
          exact ⟨List.mem_cons.mpr (Or.inr hmem2), hn⟩
      · rintro ⟨hs, hn⟩
        rcases List.mem_cons.mp hs with heq | hmem
        · rw [Prod.mk.injEq] at heq
          obtain ⟨rfl, rfl⟩ := heq
          exact List.mem_cons.mpr (Or.inl rfl)
        · exact List.mem_cons.mpr (Or.inr (ih.mpr ⟨hmem, hn⟩))

/-- C5: `CleanupStaleSessions` removes and returns exactly the ids of
sessions with `active = false` whose idle time exceeds the timeout and
whose predicate passes (or is nil); entries failing the predicate stay in
the registry, and an active session is never removed regardless of idle
time. -/
theorem C5_sweep_idle_characterization (now timeout : Int)
    (pred : Option (String → Bool)) (reg : Registry) :
    (∀ id, id ∈ (cleanupStaleSessions now timeout pred reg).2 ↔
      ∃ s, (id, s) ∈ reg ∧ staleCond now timeout s = true ∧ predPasses pred id = true)
    ∧ (∀ id s, (id, s) ∈ (cleanupStaleSessions now timeout pred reg).1 ↔
      (id, s) ∈ reg ∧ ¬(staleCond now timeout s = true ∧ predPasses pred id = true))
    ∧ (∀ id s, (id, s) ∈ reg → s.active = true →
      (id, s) ∈ (cleanupStaleSessions now timeout pred reg).1) := by
  refine ⟨fun id => cleanup_deleted_mem now timeout pred reg id,
    fun id s => cleanup_remaining_mem now timeout pred reg id s, ?_⟩
  intro id s hs ha
  rw [cleanup_remaining_mem]
  refine ⟨hs, ?_⟩
  rintro ⟨hstale, _⟩
  rw [staleCond, ha] at hstale
  simp at hstale

/-- C5 witness: a two-session registry — an old inactive session is
returned as deleted, while an equally old active session survives. -/
theorem C5_witness :
    "idle" ∈ (cleanupStaleSessions 100 10 none
        [("idle", ⟨"idle", "p1", 0, 0, "u", false, false⟩),
         ("busy", ⟨"busy", "p2", 0, 0, "u", true, false⟩)]).2
    ∧ ("busy", (⟨"busy", "p2", 0, 0, "u", true, false⟩ : Session)) ∈
        (cleanupStaleSessions 100 10 none
          [("idle", ⟨"idle", "p1", 0, 0, "u", false, false⟩),
           ("busy", ⟨"busy", "p2", 0, 0, "u", true, false⟩)]).1 := by
  have h := C5_sweep_idle_characterization 100 10 none
    [("idle", ⟨"idle", "p1", 0, 0, "u", false, false⟩),
     ("busy", ⟨"busy", "p2", 0, 0, "u", true, false⟩)]
  constructor
  · exact (h.1 "idle").mpr ⟨⟨"idle", "p1", 0, 0, "u", false, false⟩,
      by decide, by decide, by decide⟩
  · exact h.2.2 "busy" ⟨"busy", "p2", 0, 0, "u", true, false⟩ (by decide) rfl

/-- C3: the spec requires that no registry operation performs I/O or a
re-entrant registry call while the reader/writer lock is held.  Evaluated
at a registry holding one stale inactive session, the Cleaner's sweep
violates this: `CleanupStaleSessions` takes the write lock and then runs
the Cleaner's predicate, which attempts `GetSession` (an `RLock` of the
same non-reentrant `sync.RWMutex` — a self-deadlock) and `DeletePod`
(network I/O with a 30-second timeout) while the write lock is held. -/
theorem C3_sweep_lock_violation :
    cleanerSweepOps [("s1", ⟨"s1", "kubrowser-u1", 0, 0, "u1", false, false⟩)] 1000 10 =
      [RegOp.lockW, RegOp.lockR, RegOp.unlockR, RegOp.netCall "DeletePod", RegOp.unlockW]
    ∧ violatesLockDiscipline
        (cleanerSweepOps [("s1", ⟨"s1", "kubrowser-u1", 0, 0, "u1", false, false⟩)]
          1000 10) = true := by
  constructor
  · decide
  · decide

/-! ## Readiness polling lemmas -/

lemma waitFrom_not_success (sched : Nat → GetResult) :
    ∀ (fuel start : Nat), (∀ k < fuel, pollReady (sched (start + k)) = false) →
    (waitForPodReadyFrom sched fuel start).1 ≠ WaitOutcome.success := by
  intro fuel
  induction fuel with
  | zero =>
    intro start _
    simp [waitForPodReadyFrom]
  | succ n ih =>
    intro start h
    have h0 : pollReady (sched start) = false := by
      have := h 0 (Nat.succ_pos n)
      simpa using this
    cases hs : sched start with
    | fail => simp [waitForPodReadyFrom, hs]
    | found st =>
      have hnr : (st.phase = PodPhase.running && st.ready) = false := by
        rw [pollReady.eq_def, hs] at h0
        exact h0
      simp only [waitForPodReadyFrom, hs, hnr, Bool.false_eq_true, if_false]
      exact ih (start + 1) (fun k hk => by
        have := h (k + 1) (Nat.succ_lt_succ hk)
        rw [show start + (k + 1) = start + 1 + k by omega] at this
        exact this)

lemma waitFrom_apiError (sched : Nat → GetResult) :
    ∀ (fuel k start : Nat), k < fuel → sched (start + k) = GetResult.fail →
    (∀ j < k, pollReady (sched (start + j)) = false ∧ sched (start + j) ≠ GetResult.fail) →
    (waitForPodReadyFrom sched fuel start).1 = WaitOutcome.apiError := by
  intro fuel
  induction fuel with
  | zero =>
    intro k start hk
    omega
  | succ n ih =>
    intro k start hk hfail hbefore
    cases k with
    | zero =>
      rw [Nat.add_zero] at hfail
      simp [waitForPodReadyFrom, hfail]
    | succ m =>
      obtain ⟨h0, h0ne⟩ := hbefore 0 (Nat.succ_pos m)
      rw [Nat.add_zero] at h0 h0ne
      cases hs : sched start with
      | fail => exact absurd hs h0ne
      | found st =>
        have hnr : (st.phase = PodPhase.running && st.ready) = false := by
          rw [pollReady.eq_def, hs] at h0
          exact h0
        simp only [waitForPodReadyFrom, hs, hnr, Bool.false_eq_true, if_false]
        refine ih m (start + 1) (Nat.lt_of_succ_lt_succ hk) ?_ ?_
        · rw [show start + 1 + m = start + (m + 1) by omega]
          exact hfail
        · intro j hj
          have := hbefore (j + 1) (Nat.succ_lt_succ hj)
          rw [show start + (j + 1) = start + 1 + j by omega] at this
          exact this

/-- C7 counterexample: the claim says a failed `Get` on a single poll does
not abort the wait and only the timeout (or success) ends the loop.  But
for a schedule whose first poll fails and whose every later poll would
report the pod Running and Ready, `waitForPodReady` ends at once with the
API error — neither success nor timeout. -/
theorem C7_counterexample :
    (waitForPodReady (fun i =>
        if i = 0 then GetResult.fail
        else GetResult.found ⟨PodPhase.running, true, false⟩)).1 = WaitOutcome.apiError
    ∧ (waitForPodReady (fun i =>
        if i = 0 then GetResult.fail
        else GetResult.found ⟨PodPhase.running, true, false⟩)).1 ≠ WaitOutcome.success
    ∧ (waitForPodReady (fun i =>
        if i = 0 then GetResult.fail
        else GetResult.found ⟨PodPhase.running, true, false⟩)).1 ≠ WaitOutcome.timeout := by
  refine ⟨rfl, by decide, by decide⟩

/-- C7 amended: a cluster-API error on any poll ends the wait immediately:
the first poll whose `Get` fails (all earlier polls returning a not-ready
pod) makes `waitForPodReady` return the API error rather than keep
retrying until its own timeout. -/
theorem C7_amended_get_error_aborts_wait (sched : Nat → GetResult) (k : Nat)
    (hk : k < pollFuel) (hfail : sched k = GetResult.fail)
    (hbefore : ∀ j < k, pollReady (sched j) = false ∧ sched j ≠ GetResult.fail) :
    (waitForPodReady sched).1 = WaitOutcome.apiError := by
  refine waitFrom_apiError sched pollFuel k 0 hk ?_ ?_
  · rw [Nat.zero_add]
    exact hfail
  · intro j hj
    rw [Nat.zero_add]
    exact hbefore j hj

/-- C7 witness: the amended theorem at a schedule whose third poll fails
after two not-ready polls. -/
theorem C7_witness :
    (waitForPodReady (fun i =>
        if i = 2 then GetResult.fail
        else GetResult.found ⟨PodPhase.pending, false, false⟩)).1
      = WaitOutcome.apiError :=
  C7_amended_get_error_aborts_wait
    (fun i => if i = 2 then GetResult.fail
      else GetResult.found ⟨PodPhase.pending, false, false⟩)
    2 (by decide) (by decide) (by decide)

/-- C6: when readiness is never reached within the bounded wait (every
poll inside the 150-poll / 5-minute budget reports the pod not Running
and Ready), `CreatePodWithStatus` issues a `DeletePod` for the
half-created pod and returns an error; and provided that best-effort
cleanup delete does not itself fail with a non-not-found cluster error
(the code discards its result, `_ = pm.DeletePod`), no pod of the
owner's name remains on the cluster afterwards. -/
theorem C6_readiness_timeout_cleanup (username : String) (env : ClusterEnv)
    (hlim : env.limitsValid = true) (hcr : env.createOk = true)
    (hnr : ∀ k, k < pollFuel → pollReady (env.sched k) = false)
    (hcd : env.cleanupDeleteRes ≠ DeleteRes.errOther) :
    (createPodWithStatus username env).result = Except.error "pod failed to become ready"
    ∧ ApiEvent.deletePod (podNameFor username) ∈ (createPodWithStatus username env).trace
    ∧ (createPodWithStatus username env).present = false := by
  have hns : (waitForPodReady env.sched).1 ≠ WaitOutcome.success := by
    rw [waitForPodReady]
    exact waitFrom_not_success env.sched pollFuel 0 (fun k hk => by
      rw [Nat.zero_add]
      exact hnr k hk)
  unfold createPodWithStatus
  rcases hw : (waitForPodReady env.sched).1 with _ | _ | _
  · exact absurd hw hns
  · refine ⟨?_, ?_, ?_⟩
    · simp [hlim, hcr, hw]
    · rcases hex : env.existing with _ | p <;> simp [hlim, hcr, hw, hex]
    · simp [hlim, hcr, hw, hcd]
  · refine ⟨?_, ?_, ?_⟩
    · simp [hlim, hcr, hw]
    · rcases hex : env.existing with _ | p <;> simp [hlim, hcr, hw, hex]
    · simp [hlim, hcr, hw, hcd]

/-- C6 witness: the theorem at a schedule where every poll reports a
Pending, not-ready pod and the cleanup delete succeeds. -/
theorem C6_witness :
    (createPodWithStatus "carol"
        ⟨none, DeleteRes.ok, DeleteRes.ok, true, true,
          fun _ => GetResult.found ⟨PodPhase.pending, false, false⟩⟩).result
      = Except.error "pod failed to become ready"
    ∧ (createPodWithStatus "carol"
        ⟨none, DeleteRes.ok, DeleteRes.ok, true, true,
          fun _ => GetResult.found ⟨PodPhase.pending, false, false⟩⟩).present = false := by
  have h := C6_readiness_timeout_cleanup "carol"
    ⟨none, DeleteRes.ok, DeleteRes.ok, true, true,
      fun _ => GetResult.found ⟨PodPhase.pending, false, false⟩⟩
    rfl rfl (by decide) (by decide)
  exact ⟨h.1, h.2.2⟩

/-- C1 counterexample: the claim says that when the owner's pod already
exists, is Running, not terminating, and Ready, the call reuses it and
creates no new pod.  But with exactly such a pod on the cluster,
`CreatePodWithStatus` for owner "alice" both deletes the existing pod and
creates a new one of the same name. -/
theorem C1_counterexample :
    ApiEvent.deletePod "kubrowser-alice" ∈
      (createPodWithStatus "alice"
        ⟨some ⟨PodPhase.running, true, false⟩, DeleteRes.ok, DeleteRes.ok, true, true,
          fun _ => GetResult.found ⟨PodPhase.running, true, false⟩⟩).trace
    ∧ ApiEvent.createPod "kubrowser-alice" ∈
      (createPodWithStatus "alice"
        ⟨some ⟨PodPhase.running, true, false⟩, DeleteRes.ok, DeleteRes.ok, true, true,
          fun _ => GetResult.found ⟨PodPhase.running, true, false⟩⟩).trace := by
  constructor
  · decide
  · decide

lemma createPod_result_name (username : String) (env : ClusterEnv) (name : String)
    (h : (createPodWithStatus username env).result = Except.ok name) :
    name = podNameFor username := by
  unfold createPodWithStatus at h
  by_cases hl : env.limitsValid = false
  · simp [hl] at h
  · by_cases hc : env.createOk = false
    · simp [hl, hc] at h
    · rcases hw : (waitForPodReady env.sched).1 with _ | _ | _
      · simp [hl, hc, hw] at h
        exact h.symm
      · simp [hl, hc, hw] at h
      · simp [hl, hc, hw] at h

/-- C1 amended: when a pod with the owner's name already exists — in any
state, a Running and Ready one included — `CreatePodWithStatus` deletes
it and creates a replacement rather than reusing it; the name is the
deterministic `kubrowser-{sanitized owner}`, so any two calls for the
same owner that both succeed do return the same pod name. -/
theorem C1_amended_delete_then_recreate (username : String) (env : ClusterEnv) :
    (env.existing.isSome = true →
      ApiEvent.deletePod (podNameFor username) ∈ (createPodWithStatus username env).trace)
    ∧ (env.limitsValid = true →
      ApiEvent.createPod (podNameFor username) ∈ (createPodWithStatus username env).trace)
    ∧ (∀ (env2 : ClusterEnv) (n1 n2 : String),
        (createPodWithStatus username env).result = Except.ok n1 →
        (createPodWithStatus username env2).result = Except.ok n2 →
        n1 = n2) := by
  refine ⟨?_, ?_, ?_⟩
  · intro hex
    obtain ⟨ex, dr, cd, lv, co, sc⟩ := env
    rcases ex with _ | p
    · simp at hex
    · rcases hw : (waitForPodReady sc).1 with _ | _ | _ <;>
        rcases dr with _ | _ | _ <;> rcases lv with _ | _ <;> rcases co with _ | _ <;>
          simp [createPodWithStatus, hw]
  · intro hlim
    obtain ⟨ex, dr, cd, lv, co, sc⟩ := env
    cases hlim
    rcases ex with _ | p <;>
      rcases hw : (waitForPodReady sc).1 with _ | _ | _ <;>
        rcases dr with _ | _ | _ <;> rcases co with _ | _ <;>
          simp [createPodWithStatus, hw]
  · intro env2 n1 n2 h1 h2
    rw [createPod_result_name username env n1 h1,
      createPod_result_name username env2 n2 h2]

/-- C1 witness: the amended theorem at owner "bob" with an existing
Pending pod and a schedule that reaches readiness. -/
theorem C1_witness :
    ApiEvent.deletePod (podNameFor "bob") ∈
      (createPodWithStatus "bob"
        ⟨some ⟨PodPhase.pending, false, false⟩, DeleteRes.ok, DeleteRes.ok, true, true,
          fun _ => GetResult.found ⟨PodPhase.running, true, false⟩⟩).trace
    ∧ ApiEvent.createPod (podNameFor "bob") ∈
      (createPodWithStatus "bob"
        ⟨some ⟨PodPhase.pending, false, false⟩, DeleteRes.ok, DeleteRes.ok, true, true,
          fun _ => GetResult.found ⟨PodPhase.running, true, false⟩⟩).trace := by
  have h := C1_amended_delete_then_recreate "bob"
    ⟨some ⟨PodPhase.pending, false, false⟩, DeleteRes.ok, DeleteRes.ok, true, true,
      fun _ => GetResult.found ⟨PodPhase.running, true, false⟩⟩
  exact ⟨h.1 rfl, h.2.1 rfl⟩

/-- C2 counterexample: the claim says that when the existing pod found
for the owner is terminating or not reusable, the call deletes it and
then polls the cluster until the pod is observed absent (a bounded wait
of up to 60 seconds) before creating the replacement.  Here the found
pod is exactly that — Pending, not Ready, and terminating (deletion
timestamp set) — and the call does delete it, but the only step between
the delete and the create is a fixed 1-second sleep: no `Get` of the pod
occurs there at all. -/
theorem C2_counterexample :
    betweenDeleteCreate
        (createPodWithStatus "alice"
          ⟨some ⟨PodPhase.pending, false, true⟩, DeleteRes.ok, DeleteRes.ok, true, true,
            fun _ => GetResult.found ⟨PodPhase.running, true, false⟩⟩).trace
      = [ApiEvent.sleepSec 1]
    ∧ ∀ e ∈ betweenDeleteCreate
        (createPodWithStatus "alice"
          ⟨some ⟨PodPhase.pending, false, true⟩, DeleteRes.ok, DeleteRes.ok, true, true,
            fun _ => GetResult.found ⟨PodPhase.running, true, false⟩⟩).trace,
        e.isGet = false := by
  constructor
  · decide
  · decide

/-- C2 amended: when an existing pod is found and its deletion does not
fail outright, `CreatePodWithStatus` waits a fixed 1 second after the
delete — performing no poll of the cluster for observed absence and
applying no 60-second bound — before proceeding to create the
replacement. -/
theorem C2_amended_fixed_sleep_no_absence_poll (username : String) (env : ClusterEnv)
    (hex : env.existing.isSome = true) (hdel : env.deleteRes ≠ DeleteRes.errOther) :
    betweenDeleteCreate (createPodWithStatus username env).trace = [ApiEvent.sleepSec 1]
    ∧ ∀ e ∈ betweenDeleteCreate (createPodWithStatus username env).trace,
        e.isGet = false := by
  have h1 : betweenDeleteCreate (createPodWithStatus username env).trace
      = [ApiEvent.sleepSec 1] := by
    obtain ⟨ex, dr, cd, lv, co, sc⟩ := env
    rcases ex with _ | p
    · simp at hex
    · simp only [ClusterEnv.deleteRes] at hdel
      rcases hw : (waitForPodReady sc).1 with _ | _ | _ <;>
        rcases dr with _ | _ | _ <;> rcases lv with _ | _ <;> rcases co with _ | _ <;>
          first
          | exact absurd rfl hdel
          | simp [createPodWithStatus, betweenDeleteCreate, hw,
              ApiEvent.isDelete, ApiEvent.isCreate]
  refine ⟨h1, ?_⟩
  intro e he
  rw [h1] at he
  rcases List.mem_singleton.mp he with rfl
  rfl

/-- C2 witness: the amended theorem at owner "bob" with an existing pod
whose delete reports not-found. -/
theorem C2_witness :
    betweenDeleteCreate
        (createPodWithStatus "bob"
          ⟨some ⟨PodPhase.pending, false, true⟩, DeleteRes.notFound, DeleteRes.ok, true, true,
            fun _ => GetResult.found ⟨PodPhase.running, true, false⟩⟩).trace
      = [ApiEvent.sleepSec 1] :=
  (C2_amended_fixed_sleep_no_absence_poll "bob"
    ⟨some ⟨PodPhase.pending, false, true⟩, DeleteRes.notFound, DeleteRes.ok, true, true,
      fun _ => GetResult.found ⟨PodPhase.running, true, false⟩⟩
    rfl (by decide)).1

end Kubrowser
